import Mathlib

/-!
Shallow embedding of `mongo_printer.py`: gdb pretty printers for
`mongo::StringMap`, `mongo::Status`, `mongo::StringData` and `mongo::BSONObj`.

The gdb value-introspection layer is modelled explicitly:
- target byte memory is a function `Nat → Nat` (address to byte);
- target character memory is a function `Nat → Char`;
- a gdb integer value carries both its numeric value and its textual
  rendering (`str(...)` of the value, e.g. a qualified enumerator name);
- a fallible operation (null-pointer dereference, `read_memory`, the
  optional `bson` codec) is an `Except String` computation whose `error`
  constructor stands for a raised Python exception.

Python dynamic rebinding of `size` in `BSONObjPrinter.to_string`
(`size = hex(size)` turns the integer into a string) is modelled by the
sum type `PySize`.
-/

/-- Python `hex(...)` of an integer: lowercase hexadecimal with `0x`
(and a leading `-` for negatives). -/
def pyHex (n : Int) : String :=
  if n < 0 then "-0x" ++ String.mk (Nat.toDigits 16 n.natAbs)
  else "0x" ++ String.mk (Nat.toDigits 16 n.toNat)

/-- Read a 4-byte little-endian signed 32-bit integer from target memory,
as `ptr.cast(int_pointer).dereference()` does in the printer. -/
def readI32LE (mem : Nat → Nat) (addr : Nat) : Int :=
  let u : Nat := mem addr % 256 + 256 * (mem (addr + 1) % 256)
      + 65536 * (mem (addr + 2) % 256) + 16777216 * (mem (addr + 3) % 256)
  if u < 2 ^ 31 then (u : Int) else (u : Int) - 2 ^ 32

/-! ## StringMapPrinter -/

/-- One slot of the open-addressed backing array: the `used` flag and the
slot storage reinterpreted through the declared `value_type` as the
(key, value) pair (`value.first` / `value.second` in the printer). -/
structure MapSlot (K V : Type) where
  used : Bool
  data : K × V

/-- The fields of a `mongo::StringMap` value that the printer reads:
`_size`, `_area._capacity`, the backing-array pointer `_area._entries.px`
(one address unit per slot) and the target memory holding the slots. -/
structure StringMapVal (K V : Type) where
  _size : Int
  _capacity : Nat
  px : Nat
  mem : Nat → MapSlot K V

/-- A yielded child is either the key or the value of a slot's pair. -/
inductive ChildVal (K V : Type) where
  | key : K → ChildVal K V
  | value : V → ChildVal K V

/-- Whether a yielded child is the key half of a pair. -/
def ChildVal.isKey {K V : Type} : ChildVal K V → Bool
  | .key _ => true
  | .value _ => false

/-- The `while it != end` loop of `StringMapPrinter.children`, with `fuel`
slots left to scan starting at slot address `it`.  Each list entry is
annotated (first component) with the slot address the child was yielded
from; the label (second component) is the python `'k'+str(it)` /
`'v'+str(it)` where `it` has already been incremented past the slot. -/
def childrenLoop {K V : Type} (mem : Nat → MapSlot K V) :
    Nat → Nat → List (Nat × String × ChildVal K V)
  | _, 0 => []
  | it, Nat.succ n =>
    let elt := mem it
    if elt.used then
      (it, "k" ++ toString (it + 1), ChildVal.key elt.data.1) ::
      (it, "v" ++ toString (it + 1), ChildVal.value elt.data.2) ::
      childrenLoop mem (it + 1) n
    else
      childrenLoop mem (it + 1) n

/-- `StringMapPrinter.children`: the sequence of (label, child) entries the
generator yields, scanning `_capacity` slots from `_entries.px`. -/
def StringMapPrinter.children {K V : Type} (val : StringMapVal K V) :
    List (String × ChildVal K V) :=
  (childrenLoop val.mem val.px val._capacity).map (fun e => (e.2.1, e.2.2))

/-- Specification helper: the slot addresses at which key children (one per
(key, value) pair) are yielded, in yield order. -/
def pairSlots {K V : Type} (val : StringMapVal K V) : List Nat :=
  (childrenLoop val.mem val.px val._capacity).filterMap
    (fun e => if (e.2.2).isKey then some e.1 else none)

/-! ## StatusPrinter -/

/-- A gdb integer value: numeric value plus its `str(...)` rendering
(for an enumerator, the qualified name such as `mongo::ErrorCodes::BadValue`). -/
structure GdbIntVal where
  num : Int
  text : String

/-- The dereferenced `ErrorInfo` record behind `Status::_error`:
the `code` field both numerically and textually, and the rendered
`reason` and `location` strings.  Python truthiness of `location`
is modelled as non-emptiness. -/
structure ErrorInfo where
  code : Int
  codeText : String
  reason : String
  location : String

/-- A `mongo::Status` value: the `_error` pointer, null (`none`) or
pointing at an `ErrorInfo` record. -/
structure StatusVal where
  _error : Option ErrorInfo

/-- `gdb.Value.dereference()` on the `_error` pointer: dereferencing a null
pointer raises (modelled as `Except.error`). -/
def gdbDeref (p : Option ErrorInfo) : Except String ErrorInfo :=
  match p with
  | none => .error "Cannot access memory at address 0x0"
  | some info => .ok info

/-- `ErrorCodes::OK` -/
def statusOK : Int := 0

/-- `StatusPrinter.code`: null `_error` means OK (the python int 0, whose
`str` is `0`), otherwise the dereferenced record's `code` field. -/
def StatusPrinter.code (val : StatusVal) : Except String GdbIntVal :=
  if val._error.isNone then .ok ⟨0, "0"⟩
  else
    match gdbDeref val._error with
    | .error e => .error e
    | .ok info => .ok ⟨info.code, info.codeText⟩

/-- Python `str.split('::')` specialised to the `'::'` separator used by
the printer (split at each leftmost occurrence, scanning left to right). -/
def splitCc : List Char → List (List Char)
  | [] => [[]]
  | ':' :: ':' :: rest => [] :: splitCc rest
  | c :: rest =>
    match splitCc rest with
    | [] => [[c]]
    | h :: t => (c :: h) :: t

/-- `str(code).split('::')[-1]`: strip any namespace qualification. -/
def stripNamespace (s : String) : String :=
  String.mk ((splitCc s.data).getLastD [])

/-- `StatusPrinter.to_string`. -/
def StatusPrinter.to_string (val : StatusVal) : Except String String :=
  match StatusPrinter.code val with
  | .error e => .error e
  | .ok code =>
    if code.num = statusOK then .ok "Status::OK()"
    else
      match gdbDeref val._error with
      | .error e => .error e
      | .ok info =>
        if info.location ≠ "" then
          .ok ("Status(" ++ stripNamespace code.text ++ ", " ++ info.reason
                ++ ", " ++ info.location ++ ")")
        else
          .ok ("Status(" ++ stripNamespace code.text ++ ", " ++ info.reason ++ ")")

/-! ## StringDataPrinter -/

/-- The fields of a `mongo::StringData` value: `_size` and the address of
the character data behind `_data`. -/
structure StringDataVal where
  _size : Int
  _data : Nat

/-- The implementation-defined bound gdb puts on a null-terminated
`lazy_string` read (the `print elements` limit). -/
def PRINT_ELEMENTS_MAX : Nat := 200

/-- A bounded null-terminated read from target character memory, as
`lazy_string()` with no explicit length performs. -/
def readCString (mem : Nat → Char) : Nat → Nat → List Char
  | _, 0 => []
  | addr, Nat.succ fuel =>
    let c := mem addr
    if c = Char.ofNat 0 then [] else c :: readCString mem (addr + 1) fuel

/-- `StringDataPrinter.to_string`: sentinel size `-1` means a
null-terminated `lazy_string()`; otherwise `lazy_string(length = size)`
reads exactly `size` characters. -/
def StringDataPrinter.to_string (mem : Nat → Char) (val : StringDataVal) :
    List Char :=
  if val._size = -1 then readCString mem val._data PRINT_ELEMENTS_MAX
  else (List.range val._size.toNat).map (fun i => mem (val._data + i))

/-! ## BSONObjPrinter -/

/-- The gdb environment a `BSONObj` render runs in: target byte memory
(for the pointer dereference of the length prefix),
`gdb.selected_inferior().read_memory` (which may raise on an unmapped
range), and the optional `bson` codec collaborator.  A present codec is a
function from the read buffer to either the `pprint.pformat`ted decoded
document or a raised decode exception's message. -/
structure GdbEnv where
  mem : Nat → Nat
  readMemory : Nat → Nat → Except String (List Nat)
  bsonDecode : Option (List Nat → Except String String)

/-- The fields of a `mongo::BSONObj` value the printer reads: the
`_ownedBuffer._buffer._holder.px` pointer and the `_objdata` address. -/
structure BSONObjVal where
  holderPx : Nat
  objdata : Nat

/-- The python local `size` after the envelope check: still an integer, or
rebound to the `hex(size)` string. -/
inductive PySize where
  | int : Int → PySize
  | hexStr : String → PySize

/-- The python comparison `size == 5` (a string never equals an int). -/
def PySize.isFive : PySize → Bool
  | .int n => n = 5
  | .hexStr _ => false

/-- The `%s` rendering of `size`: decimal for an integer, the hex string
as-is once rebound. -/
def PySize.repr : PySize → String
  | .int n => toString n
  | .hexStr s => s

/-- `inferior.read_memory(ptr, size)` with the dynamically-typed `size`:
passing the rebound hex string as the length raises a TypeError. -/
def readMemoryDyn (env : GdbEnv) (addr : Nat) (len : PySize) :
    Except String (List Nat) :=
  match len with
  | .int n => env.readMemory addr n.toNat
  | .hexStr s =>
    .error ("TypeError: read_memory length must be an integer, got str " ++ s)

/-- The envelope check rebinding `size`: an implausible length
(`size < 5 or size > 17*1024*1024`) is replaced by its `hex(...)` string. -/
def bsonSizeVal (size0 : Int) : PySize :=
  if size0 < 5 ∨ size0 > 17 * 1024 * 1024 then .hexStr (pyHex size0)
  else .int size0

/-- The rest of `BSONObjPrinter.to_string` after `ownership`, `ptr` and
`size` have been computed: the `size == 5` check, then the codec branch. -/
def bsonRender (env : GdbEnv) (ownership : String) (ptr : Nat) (size : PySize) :
    Except String String :=
  if size.isFive then
    .ok (ownership ++ " empty BSONObj @ " ++ pyHex ptr)
  else
    match env.bsonDecode with
    | some decodeFmt =>
      match readMemoryDyn env ptr size with
      | .error e => .error e
      | .ok buf =>
        match decodeFmt buf with
        | .ok doc =>
          .ok (ownership ++ " BSONObj " ++ size.repr ++ " bytes @ "
                ++ pyHex ptr ++ ": " ++ doc)
        | .error e =>
          .ok (ownership ++ " BSONObj " ++ size.repr ++ " bytes @ "
                ++ pyHex ptr ++ ": error decoding (" ++ e ++ ")")
    | none =>
      .ok (ownership ++ " BSONObj " ++ size.repr ++ " bytes @ " ++ pyHex ptr)

/-- `BSONObjPrinter.to_string`: derive the ownership string from the
holder pointer, read the 4-byte length prefix at `_objdata`, apply the
envelope check and render. -/
def BSONObjPrinter.to_string (env : GdbEnv) (val : BSONObjVal) :
    Except String String :=
  bsonRender env (if val.holderPx ≠ 0 then "owned" else "unowned") val.objdata
    (bsonSizeVal (readI32LE env.mem val.objdata))

/-! ## Lemmas about the StringMap traversal -/

/-- Scanning `n` slots from `it` yields one key child per used slot and two
children per used slot. -/
theorem childrenLoop_count {K V : Type} (mem : Nat → MapSlot K V) :
    ∀ n it : Nat,
      ((childrenLoop mem it n).countP fun e => (e.2.2).isKey) =
          ((List.range n).countP fun i => (mem (it + i)).used)
        ∧ (childrenLoop mem it n).length =
            2 * ((List.range n).countP fun i => (mem (it + i)).used) := by
  intro n
  induction n with
  | zero => intro it; simp [childrenLoop]
  | succ n ih =>
    intro it
    obtain ⟨ih1, ih2⟩ := ih (it + 1)
    have hshift : ((List.range (n + 1)).countP fun i => (mem (it + i)).used)
        = ((List.range n).countP fun i => (mem (it + 1 + i)).used)
          + (if (mem it).used then 1 else 0) := by
      rw [List.range_succ_eq_map, List.countP_cons, List.countP_map]
      have hfe : ((fun i => (mem (it + i)).used) ∘ (· + 1))
          = fun i => (mem (it + 1 + i)).used := by
        funext i
        simp only [Function.comp]
        congr 2
        omega
      rw [hfe]
      simp
    by_cases h : (mem it).used
    · have hl : childrenLoop mem it (n + 1)
          = (it, "k" ++ toString (it + 1), ChildVal.key (mem it).data.1) ::
            (it, "v" ++ toString (it + 1), ChildVal.value (mem it).data.2) ::
            childrenLoop mem (it + 1) n := by
        simp [childrenLoop, h]
      rw [hl, hshift]
      constructor
      · rw [List.countP_cons, List.countP_cons, ih1]
        simp [ChildVal.isKey, h]
      · simp only [List.length_cons, ih2, h, if_pos]
        omega
    · have hl : childrenLoop mem it (n + 1) = childrenLoop mem (it + 1) n := by
        simp [childrenLoop, h]
      rw [hl, hshift]
      constructor
      · rw [ih1]
        simp [h]
      · rw [ih2]
        simp [h]

/-- Scanning `n` slots from `it` yields key children at strictly increasing
slot addresses, all at least `it`. -/
theorem childrenLoop_slots {K V : Type} (mem : Nat → MapSlot K V) :
    ∀ n it : Nat,
      List.Chain' (· < ·)
          ((childrenLoop mem it n).filterMap
            (fun e => if (e.2.2).isKey then some e.1 else none))
        ∧ ∀ x ∈ (childrenLoop mem it n).filterMap
            (fun e => if (e.2.2).isKey then some e.1 else none), it ≤ x := by
  intro n
  induction n with
  | zero => intro it; simp [childrenLoop]
  | succ n ih =>
    intro it
    obtain ⟨ih1, ih2⟩ := ih (it + 1)
    by_cases h : (mem it).used
    · have hl : childrenLoop mem it (n + 1)
          = (it, "k" ++ toString (it + 1), ChildVal.key (mem it).data.1) ::
            (it, "v" ++ toString (it + 1), ChildVal.value (mem it).data.2) ::
            childrenLoop mem (it + 1) n := by
        simp [childrenLoop, h]
      rw [hl]
      have hfm : ((it, "k" ++ toString (it + 1), ChildVal.key (mem it).data.1) ::
            (it, "v" ++ toString (it + 1), ChildVal.value (mem it).data.2) ::
            childrenLoop mem (it + 1) n).filterMap
              (fun e => if (e.2.2).isKey then some e.1 else none)
          = it :: (childrenLoop mem (it + 1) n).filterMap
              (fun e => if (e.2.2).isKey then some e.1 else none) := by
        simp [List.filterMap_cons, ChildVal.isKey]
      rw [hfm]
      constructor
      · rw [List.chain'_cons']
        refine ⟨fun y hy => ?_, ih1⟩
        have hmem : y ∈ (childrenLoop mem (it + 1) n).filterMap
            (fun e => if (e.2.2).isKey then some e.1 else none) :=
          List.mem_of_mem_head? hy
        exact Nat.lt_of_lt_of_le (Nat.lt_succ_self it) (ih2 y hmem)
      · intro x hx
        rcases List.mem_cons.mp hx with h1 | h2
        · omega
        · exact Nat.le_trans (Nat.le_succ it) (ih2 x h2)
    · have hl : childrenLoop mem it (n + 1) = childrenLoop mem (it + 1) n := by
        simp [childrenLoop, h]
      rw [hl]
      exact ⟨ih1, fun x hx => Nat.le_trans (Nat.le_succ it) (ih2 x hx)⟩

/-- Claim C2: for every open-addressed table, the number of (key, value)
pairs yielded by the traversal (one key child per pair) equals the number
of slots in the scanned backing array whose `used` flag is true, the child
list has exactly twice that many entries, and the result is independent of
the `_size` field. -/
theorem stringMap_children_pair_count {K V : Type} (val : StringMapVal K V) :
    ((StringMapPrinter.children val).countP fun c => c.2.isKey) =
        ((List.range val._capacity).countP fun i => (val.mem (val.px + i)).used)
    ∧ (StringMapPrinter.children val).length =
        2 * ((List.range val._capacity).countP fun i => (val.mem (val.px + i)).used)
    ∧ ∀ s : Int,
        StringMapPrinter.children ⟨s, val._capacity, val.px, val.mem⟩
          = StringMapPrinter.children val := by
  obtain ⟨h1, h2⟩ := childrenLoop_count val.mem val._capacity val.px
  refine ⟨?_, ?_, fun s => rfl⟩
  · rw [StringMapPrinter.children, List.countP_map]
    exact h1
  · rw [StringMapPrinter.children, List.length_map]
    exact h2

/-- Claim C9: the traversal yields pairs at strictly increasing slot
addresses, and two renders of tables backed by identical memory (same
backing pointer, capacity and slot contents, whatever their `_size`
fields) yield identical child sequences. -/
theorem stringMap_children_order_det {K V : Type} (v₁ v₂ : StringMapVal K V)
    (hmem : v₁.mem = v₂.mem) (hpx : v₁.px = v₂.px)
    (hcap : v₁._capacity = v₂._capacity) :
    StringMapPrinter.children v₁ = StringMapPrinter.children v₂
    ∧ List.Chain' (· < ·) (pairSlots v₁) := by
  constructor
  · rw [StringMapPrinter.children, StringMapPrinter.children, hmem, hpx, hcap]
  · exact (childrenLoop_slots v₁.mem v₁._capacity v₁.px).1

/-- A concrete backing array: even addresses used, odd addresses free. -/
def memM : Nat → MapSlot Nat Nat :=
  fun a => if a % 2 = 0 then ⟨true, (a, a + 10)⟩ else ⟨false, (0, 0)⟩

/-- Witness for claim C9 at a concrete table (capacity 4, base address 100),
rendered twice with different `_size` fields. -/
theorem stringMap_children_order_det_witness :
    StringMapPrinter.children (K := Nat) (V := Nat) ⟨3, 4, 100, memM⟩
        = StringMapPrinter.children (K := Nat) (V := Nat) ⟨99, 4, 100, memM⟩
    ∧ List.Chain' (· < ·) (pairSlots (K := Nat) (V := Nat) ⟨3, 4, 100, memM⟩) :=
  stringMap_children_order_det ⟨3, 4, 100, memM⟩ ⟨99, 4, 100, memM⟩ rfl rfl rfl
/-! ## Lemmas about the Status renderer -/

/-- A rendered error status never equals the success marker: the two
strings already differ at character index 6. -/
theorem statusParen_ne_marker (s : String) : "Status(" ++ s ≠ "Status::OK()" := by
  intro h
  have h' : "Status(".data ++ s.data = "Status::OK()".data := congrArg String.data h
  have ht := congrArg (fun l => List.take 7 l) h'
  simp only [] at ht
  rw [List.take_left' (by decide : "Status(".data.length = 7)] at ht
  exact absurd ht (by decide)

/-- With a non-null `_error`, the computed code is the record's `code`. -/
theorem status_code_some (val : StatusVal) (info : ErrorInfo)
    (hval : val._error = some info) :
    StatusPrinter.code val = .ok ⟨info.code, info.codeText⟩ := by
  simp [StatusPrinter.code, hval, gdbDeref]

/-- With a non-null `_error` holding a non-OK code, the rendered string is
the two- or three-argument `Status(...)` form. -/
theorem status_to_string_some (val : StatusVal) (info : ErrorInfo)
    (hval : val._error = some info) (hcode : info.code ≠ 0) :
    StatusPrinter.to_string val
      = if info.location ≠ "" then
          .ok ("Status(" ++ stripNamespace info.codeText ++ ", " ++ info.reason
                ++ ", " ++ info.location ++ ")")
        else
          .ok ("Status(" ++ stripNamespace info.codeText ++ ", " ++ info.reason ++ ")") := by
  unfold StatusPrinter.to_string
  rw [status_code_some val info hval]
  simp only [statusOK, hval, gdbDeref]
  rw [if_neg hcode]

/-- Claim C3: the computed code being OK, the `_error` reference being
null, and the rendered string being exactly the success marker are
pairwise equivalent, for every status value satisfying the data-model
invariant that a present error record carries a non-OK code. -/
theorem status_ok_equiv (val : StatusVal)
    (hinv : ∀ info, val._error = some info → info.code ≠ 0) :
    ((∃ c, StatusPrinter.code val = .ok c ∧ c.num = statusOK) ↔ val._error = none)
    ∧ (val._error = none ↔ StatusPrinter.to_string val = .ok "Status::OK()")
    ∧ ((∃ c, StatusPrinter.code val = .ok c ∧ c.num = statusOK)
        ↔ StatusPrinter.to_string val = .ok "Status::OK()") := by
  match hval : val._error with
  | none =>
    have hc : StatusPrinter.code val = .ok ⟨0, "0"⟩ := by
      simp [StatusPrinter.code, hval]
    have hs : StatusPrinter.to_string val = .ok "Status::OK()" := by
      unfold StatusPrinter.to_string
      rw [hc]
      simp [statusOK]
    have hA : ∃ c, StatusPrinter.code val = .ok c ∧ c.num = statusOK :=
      ⟨⟨0, "0"⟩, hc, rfl⟩
    exact ⟨iff_of_true hA rfl, iff_of_true rfl hs, iff_of_true hA hs⟩
  | some info =>
    have hcode : info.code ≠ 0 := hinv info hval
    have hA : ¬∃ c, StatusPrinter.code val = .ok c ∧ c.num = statusOK := by
      rintro ⟨c, hcc, hnum⟩
      rw [status_code_some val info hval] at hcc
      injection hcc with h
      subst h
      exact hcode (by simpa [statusOK] using hnum)
    have hB : ¬((some info : Option ErrorInfo) = none) := by simp
    have hC : ¬(StatusPrinter.to_string val = .ok "Status::OK()") := by
      rw [status_to_string_some val info hval hcode]
      by_cases hloc : info.location = ""
      · simp only [hloc, ne_eq, not_true_eq_false, if_false, Except.ok.injEq]
        intro h
        exact statusParen_ne_marker _ (by simpa [String.append_assoc] using h)
      · simp only [ne_eq, hloc, not_false_eq_true, if_true, Except.ok.injEq]
        intro h
        exact statusParen_ne_marker _ (by simpa [String.append_assoc] using h)
    exact ⟨iff_of_false hA hB, iff_of_false hB hC, iff_of_false hA hC⟩

/-- Witness for claim C3 at the success value (null `_error`). -/
theorem status_ok_equiv_witness :
    ((∃ c, StatusPrinter.code ⟨none⟩ = .ok c ∧ c.num = statusOK)
        ↔ (StatusVal.mk none)._error = none)
    ∧ ((StatusVal.mk none)._error = none
        ↔ StatusPrinter.to_string ⟨none⟩ = .ok "Status::OK()")
    ∧ ((∃ c, StatusPrinter.code ⟨none⟩ = .ok c ∧ c.num = statusOK)
        ↔ StatusPrinter.to_string ⟨none⟩ = .ok "Status::OK()") :=
  status_ok_equiv ⟨none⟩ (fun _ h => nomatch h)

/-- Claim C6: for a non-OK status, the rendered string contains the
reason; it contains the location exactly when the location is non-empty
(otherwise the two-argument form, which has no location slot, is
produced); and the code text is rendered with any `::`-qualification
stripped. -/
theorem status_error_render (val : StatusVal) (info : ErrorInfo)
    (hval : val._error = some info) (hcode : info.code ≠ 0) :
    ∃ r, StatusPrinter.to_string val = .ok r
      ∧ (∃ p q, r = p ++ info.reason ++ q)
      ∧ (info.location ≠ "" →
          r = "Status(" ++ stripNamespace info.codeText ++ ", " ++ info.reason
              ++ ", " ++ info.location ++ ")"
          ∧ ∃ p q, r = p ++ info.location ++ q)
      ∧ (info.location = "" →
          r = "Status(" ++ stripNamespace info.codeText ++ ", " ++ info.reason ++ ")") := by
  have hs := status_to_string_some val info hval hcode
  by_cases hloc : info.location = ""
  · refine ⟨"Status(" ++ stripNamespace info.codeText ++ ", " ++ info.reason ++ ")",
      ?_, ⟨"Status(" ++ stripNamespace info.codeText ++ ", ", ")", rfl⟩,
      fun h => absurd hloc h, fun _ => rfl⟩
    rw [hs]
    simp [hloc]
  · refine ⟨"Status(" ++ stripNamespace info.codeText ++ ", " ++ info.reason
        ++ ", " ++ info.location ++ ")",
      ?_, ⟨"Status(" ++ stripNamespace info.codeText ++ ", ",
            ", " ++ info.location ++ ")", by simp [String.append_assoc]⟩,
      fun _ => ⟨rfl, ⟨"Status(" ++ stripNamespace info.codeText ++ ", "
            ++ info.reason ++ ", ", ")", by simp [String.append_assoc]⟩⟩,
      fun h => absurd h hloc⟩
    rw [hs]
    simp [hloc]

/-- Witness for claim C6: the qualified enumerator
`mongo::ErrorCodes::BadValue` renders stripped, with reason and non-empty
location shown. -/
theorem status_error_render_witness :
    StatusPrinter.to_string
        ⟨some ⟨2, "mongo::ErrorCodes::BadValue", "bad value", "db/f.cpp:42"⟩⟩
      = .ok "Status(BadValue, bad value, db/f.cpp:42)" := by
  obtain ⟨r, hr, -, hl, -⟩ := status_error_render
    ⟨some ⟨2, "mongo::ErrorCodes::BadValue", "bad value", "db/f.cpp:42"⟩⟩
    ⟨2, "mongo::ErrorCodes::BadValue", "bad value", "db/f.cpp:42"⟩
    rfl (by decide)
  obtain ⟨hreq, -⟩ := hl (by decide)
  rw [hr, hreq]
  rfl

/-- Claim C10: rendering a status never dereferences a null `_error`:
both the code computation and the full rendering always return normally
(never the modelled null-dereference failure), for every status value. -/
theorem status_no_null_deref (val : StatusVal) :
    (∃ c, StatusPrinter.code val = .ok c)
    ∧ (∃ s, StatusPrinter.to_string val = .ok s) := by
  match hval : val._error with
  | none =>
    have hc : StatusPrinter.code val = .ok ⟨0, "0"⟩ := by
      simp [StatusPrinter.code, hval]
    refine ⟨⟨⟨0, "0"⟩, hc⟩, ⟨"Status::OK()", ?_⟩⟩
    unfold StatusPrinter.to_string
    rw [hc]
    simp [statusOK]
  | some info =>
    refine ⟨⟨⟨info.code, info.codeText⟩, status_code_some val info hval⟩, ?_⟩
    by_cases hcode : info.code = 0
    · refine ⟨"Status::OK()", ?_⟩
      unfold StatusPrinter.to_string
      rw [status_code_some val info hval]
      simp [statusOK, hcode]
    · rw [status_to_string_some val info hval hcode]
      by_cases hloc : info.location = "" <;> simp [hloc]
/-! ## Lemmas about the StringData renderer -/

/-- A bounded null-terminated read returns exactly the characters before
the first terminator, when one occurs within the bound. -/
theorem readCString_eq (mem : Nat → Char) :
    ∀ k fuel addr : Nat, k < fuel →
      (∀ i : Nat, i < k → mem (addr + i) ≠ Char.ofNat 0) →
      mem (addr + k) = Char.ofNat 0 →
      readCString mem addr fuel = (List.range k).map (fun i => mem (addr + i)) := by
  intro k
  induction k with
  | zero =>
    intro fuel addr hk _ hz
    match fuel, hk with
    | Nat.succ f, _ =>
      have h0 : mem addr = Char.ofNat 0 := by simpa using hz
      simp [readCString, h0]
  | succ k ih =>
    intro fuel addr hk hnz hz
    match fuel, hk with
    | Nat.succ f, hk =>
      have h0 : mem addr ≠ Char.ofNat 0 := by
        have := hnz 0 (Nat.succ_pos k)
        simpa using this
      have hrest : readCString mem (addr + 1) f
          = (List.range k).map (fun i => mem (addr + 1 + i)) := by
        refine ih f (addr + 1) (Nat.lt_of_succ_lt_succ hk) ?_ ?_
        · intro i hi
          have := hnz (i + 1) (Nat.succ_lt_succ hi)
          have harith : addr + (i + 1) = addr + 1 + i := by omega
          rwa [harith] at this
        · have harith : addr + (k + 1) = addr + 1 + k := by omega
          rwa [harith] at hz
      rw [readCString]
      simp only [h0, if_neg, ite_false]
      rw [hrest, List.range_succ_eq_map, List.map_cons, List.map_map]
      have hfe : ((fun i => mem (addr + i)) ∘ (· + 1))
          = fun i => mem (addr + 1 + i) := by
        funext i
        simp only [Function.comp]
        congr 1
        omega
      rw [hfe]
      simp

/-- Claim C7: with the sentinel size `-1` the rendered string stops at the
first terminating marker in the character data (within the read bound);
with an explicit size `n`, exactly `n` characters are read and rendered,
regardless of any embedded terminating markers. -/
theorem stringData_render (mem : Nat → Char) (val : StringDataVal) :
    (val._size = -1 →
      ∀ k : Nat, k < PRINT_ELEMENTS_MAX →
        (∀ i : Nat, i < k → mem (val._data + i) ≠ Char.ofNat 0) →
        mem (val._data + k) = Char.ofNat 0 →
        StringDataPrinter.to_string mem val
          = (List.range k).map (fun i => mem (val._data + i)))
    ∧ ∀ n : Nat, val._size = (n : Int) →
        StringDataPrinter.to_string mem val
            = (List.range n).map (fun i => mem (val._data + i))
          ∧ (StringDataPrinter.to_string mem val).length = n := by
  constructor
  · intro hsent k hk hnz hz
    rw [StringDataPrinter.to_string, if_pos hsent]
    exact readCString_eq mem k PRINT_ELEMENTS_MAX val._data hk hnz hz
  · intro n hn
    have hne : ¬(val._size = -1) := by
      rw [hn]
      omega
    have hres : StringDataPrinter.to_string mem val
        = (List.range n).map (fun i => mem (val._data + i)) := by
      rw [StringDataPrinter.to_string, if_neg hne, hn]
      simp
    exact ⟨hres, by rw [hres]; simp⟩

/-- A concrete character memory: `a`, `b`, NUL, `c`, then NULs. -/
def memChars : Nat → Char :=
  fun a => if a = 0 then 'a' else if a = 1 then 'b'
    else if a = 3 then 'c' else Char.ofNat 0

/-- Witness for claim C7: at the same data (which embeds a terminator at
offset 2), the sentinel size stops after 2 characters while the explicit
size 4 reads all 4 characters. -/
theorem stringData_render_witness :
    StringDataPrinter.to_string memChars ⟨-1, 0⟩
        = (List.range 2).map (fun i => memChars (0 + i))
    ∧ StringDataPrinter.to_string memChars ⟨4, 0⟩
        = (List.range 4).map (fun i => memChars (0 + i))
    ∧ (StringDataPrinter.to_string memChars ⟨4, 0⟩).length = 4 :=
  ⟨(stringData_render memChars ⟨-1, 0⟩).1 rfl 2 (by decide) (by decide) (by decide),
   (stringData_render memChars ⟨4, 0⟩).2 4 rfl⟩
/-! ## Lemmas about the BSONObj renderer -/

/-- An in-envelope length passes the plausibility check unchanged. -/
theorem bsonSizeVal_valid (size0 : Int) (h5 : 5 ≤ size0)
    (h17 : size0 ≤ 17 * 1024 * 1024) : bsonSizeVal size0 = .int size0 := by
  unfold bsonSizeVal
  rw [if_neg (by omega)]

/-- Claim C5: a document whose length prefix reads exactly 5 renders as
the `empty` form for both the owned and the unowned case, and the result
depends only on target memory — no buffer read and no decode happens
(any environment with the same memory renders identically). -/
theorem bsonobj_empty_render (env : GdbEnv) (val : BSONObjVal)
    (h : readI32LE env.mem val.objdata = 5) :
    BSONObjPrinter.to_string env val
      = .ok ((if val.holderPx ≠ 0 then "owned" else "unowned")
          ++ " empty BSONObj @ " ++ pyHex val.objdata)
    ∧ ∀ env' : GdbEnv, env'.mem = env.mem →
        BSONObjPrinter.to_string env' val = BSONObjPrinter.to_string env val := by
  have hmain : ∀ e : GdbEnv, e.mem = env.mem →
      BSONObjPrinter.to_string e val
        = .ok ((if val.holderPx ≠ 0 then "owned" else "unowned")
            ++ " empty BSONObj @ " ++ pyHex val.objdata) := by
    intro e he
    unfold BSONObjPrinter.to_string
    rw [he, h, bsonSizeVal_valid 5 (by omega) (by omega)]
    simp [bsonRender, PySize.isFive]
  exact ⟨hmain env rfl, fun env' he => (hmain env' he).trans (hmain env rfl).symm⟩

/-- Claim C8: with the codec collaborator absent, rendering never raises,
and for an in-envelope length above 5 it returns the byte-count summary
with no field contents. -/
theorem bsonobj_no_codec_render (env : GdbEnv) (val : BSONObjVal)
    (hb : env.bsonDecode = none) :
    (∃ s, BSONObjPrinter.to_string env val = .ok s)
    ∧ (5 < readI32LE env.mem val.objdata →
        readI32LE env.mem val.objdata ≤ 17 * 1024 * 1024 →
        BSONObjPrinter.to_string env val
          = .ok ((if val.holderPx ≠ 0 then "owned" else "unowned")
              ++ " BSONObj " ++ toString (readI32LE env.mem val.objdata)
              ++ " bytes @ " ++ pyHex val.objdata)) := by
  constructor
  · unfold BSONObjPrinter.to_string bsonRender
    rw [hb]
    by_cases hf : (bsonSizeVal (readI32LE env.mem val.objdata)).isFive = true
    · rw [if_pos hf]
      exact ⟨_, rfl⟩
    · rw [if_neg hf]
      exact ⟨_, rfl⟩
  · intro h5 h17
    have hfive : ¬(PySize.isFive (.int (readI32LE env.mem val.objdata)) = true) := by
      simp only [PySize.isFive, decide_eq_true_eq]
      omega
    unfold BSONObjPrinter.to_string
    rw [bsonSizeVal_valid _ (by omega) h17]
    unfold bsonRender
    rw [hb, if_neg hfive]
    simp [PySize.repr]

/-- Claim C4: with the codec present, an in-envelope length, a successful
buffer read and a failing decode, the renderer returns the
`error decoding (<cause>)` string and never propagates the failure. -/
theorem bsonobj_decode_failure_contained (env : GdbEnv) (val : BSONObjVal)
    (f : List Nat → Except String String) (buf : List Nat) (cause : String)
    (hb : env.bsonDecode = some f)
    (h5 : 5 < readI32LE env.mem val.objdata)
    (h17 : readI32LE env.mem val.objdata ≤ 17 * 1024 * 1024)
    (hread : env.readMemory val.objdata (readI32LE env.mem val.objdata).toNat = .ok buf)
    (hfail : f buf = .error cause) :
    BSONObjPrinter.to_string env val
      = .ok ((if val.holderPx ≠ 0 then "owned" else "unowned")
          ++ " BSONObj " ++ toString (readI32LE env.mem val.objdata)
          ++ " bytes @ " ++ pyHex val.objdata
          ++ ": error decoding (" ++ cause ++ ")") := by
  have hfive : ¬(PySize.isFive (.int (readI32LE env.mem val.objdata)) = true) := by
    simp only [PySize.isFive, decide_eq_true_eq]
    omega
  unfold BSONObjPrinter.to_string
  rw [bsonSizeVal_valid _ (by omega) h17]
  unfold bsonRender
  rw [if_neg hfive, hb]
  simp [readMemoryDyn, hread, hfail, PySize.repr]
/-- Target memory whose document at address 4096 has the invalid length
prefix 4 (bytes 04 00 00 00). -/
def memC1 : Nat → Nat := fun a => if a = 4096 then 4 else 0

/-- Environment for the failing input with the bson codec importable. -/
def envC1present : GdbEnv :=
  ⟨memC1, fun _ _ => .ok [], some (fun _ => .ok "OrderedDict()")⟩

/-- Environment for the failing input with the bson codec absent. -/
def envC1absent : GdbEnv := ⟨memC1, fun _ _ => .ok [], none⟩

/-- The unowned document at address 4096. -/
def valC1 : BSONObjVal := ⟨0, 4096⟩

/-- Claim C1 (code bug): on a length prefix of 4 (below 5), the renderer
returns the hex summary only when the codec collaborator is absent; when
the codec is present, control falls through into the decode branch, which
calls `read_memory` with the rebound hex string as the length and so
raises an uncaught TypeError instead of skipping decoding. -/
theorem bsonobj_invalid_size_code_bug :
    BSONObjPrinter.to_string envC1absent valC1
        = .ok "unowned BSONObj 0x4 bytes @ 0x1000"
    ∧ BSONObjPrinter.to_string envC1present valC1
        = .error "TypeError: read_memory length must be an integer, got str 0x4" :=
  ⟨rfl, rfl⟩

/-- Target memory whose document at address 0 has length prefix 5. -/
def memLen5 : Nat → Nat := fun a => if a = 0 then 5 else 0

/-- An environment whose buffer reads always fail and with no codec:
irrelevant for the empty case, which reads nothing. -/
def envEmpty : GdbEnv := ⟨memLen5, fun _ _ => .error "unmapped", none⟩

/-- Witness for claim C5 at length 5, owned and unowned. -/
theorem bsonobj_empty_render_witness :
    BSONObjPrinter.to_string envEmpty ⟨1, 0⟩ = .ok "owned empty BSONObj @ 0x0"
    ∧ BSONObjPrinter.to_string envEmpty ⟨0, 0⟩ = .ok "unowned empty BSONObj @ 0x0" := by
  have h1 := (bsonobj_empty_render envEmpty ⟨1, 0⟩ (by decide)).1
  have h2 := (bsonobj_empty_render envEmpty ⟨0, 0⟩ (by decide)).1
  exact ⟨h1.trans (by rfl), h2.trans (by rfl)⟩

/-- Target memory whose document at address 0 has length prefix 6. -/
def memLen6 : Nat → Nat := fun a => if a = 0 then 6 else 0

/-- An environment with a readable buffer and a codec that always fails. -/
def envDecodeFail : GdbEnv :=
  ⟨memLen6, fun _ _ => .ok [6, 0, 0, 0, 1, 0], some (fun _ => .error "bad bson")⟩

/-- Witness for claim C4 at length 6 with a failing decode. -/
theorem bsonobj_decode_failure_contained_witness :
    BSONObjPrinter.to_string envDecodeFail ⟨0, 0⟩
      = .ok "unowned BSONObj 6 bytes @ 0x0: error decoding (bad bson)" := by
  have h := bsonobj_decode_failure_contained envDecodeFail ⟨0, 0⟩
    (fun _ => .error "bad bson") [6, 0, 0, 0, 1, 0] "bad bson"
    rfl (by decide) (by decide) rfl rfl
  exact h.trans (by rfl)

/-- An environment with no codec (and failing buffer reads, which the
codec-absent path never performs). -/
def envNoCodec : GdbEnv := ⟨memLen6, fun _ _ => .error "unmapped", none⟩

/-- Witness for claim C8 at length 6 with the codec absent. -/
theorem bsonobj_no_codec_render_witness :
    (∃ s, BSONObjPrinter.to_string envNoCodec ⟨0, 0⟩ = .ok s)
    ∧ BSONObjPrinter.to_string envNoCodec ⟨0, 0⟩
        = .ok "unowned BSONObj 6 bytes @ 0x0" := by
  have h := bsonobj_no_codec_render envNoCodec ⟨0, 0⟩ rfl
  exact ⟨h.1, (h.2 (by decide) (by decide)).trans (by rfl)⟩
